import Mathlib

/-!
Shallow embedding of the deterministic prompt compiler and its governing
state machine (source: `compiler/compilePrompt.ts`, `compiler/stateMachine.ts`,
`compiler/assembleFrames.ts`, `compiler/enforceConstraints.ts`,
`compiler/types.ts`), together with theorems settling the frozen claims
about that code.

Modelling conventions:
- JavaScript strings are modelled by Lean `String`; `charCodeAt` is modelled
  by the character's code point (identical to the UTF-16 code unit for all
  basic-plane text, which covers every string this repository manipulates).
- `localeCompare` and the default `Array.prototype.sort` comparator are
  modelled by the lexicographic order on `String`; since that order is
  antisymmetric, any stable sort yields the same list, so `List.insertionSort`
  is a faithful model of `Array.prototype.sort`.
- Functions that can `throw` return `Option`/`Except`; `none`/`.error`
  is the thrown case.
- TypeScript `string | null | undefined` fields are modelled by
  `Option String` (`none` for both `null` and `undefined`, which the code
  never distinguishes), and JavaScript truthiness tests on such fields are
  modelled by `truthy` below (`none` and the empty string are falsy).
-/

/-- The apostrophe character, used by source error messages such as
`Unknown module id: '<id>'`. -/
def quoteChar : Char := Char.ofNat 39

/-- Wrap a string in single quotes, as the source error messages do. -/
def q (s : String) : String := quoteChar.toString ++ s ++ quoteChar.toString

/-- `startsWithChars hay needle` is true when `needle` is a prefix of `hay`. -/
def startsWithChars : List Char → List Char → Bool
  | _, [] => true
  | [], _ :: _ => false
  | h :: hs, n :: ns => h = n && startsWithChars hs ns

/-- `hasSubChars hay needle` is true when `needle` occurs contiguously in
`hay`; models JavaScript `String.prototype.includes`. -/
def hasSubChars : List Char → List Char → Bool
  | hay, needle =>
    startsWithChars hay needle ||
      match hay with
      | [] => false
      | _ :: t => hasSubChars t needle

/-- `containsStr hay needle` models `hay.includes(needle)`. -/
def containsStr (hay needle : String) : Bool := hasSubChars hay.data needle.data

/-- Models `String.prototype.toUpperCase` (ASCII, which covers the marker
phrases the code searches for). -/
def strToUpper (s : String) : String := String.mk (s.data.map Char.toUpper)

/-- Models `String.prototype.toLowerCase` (ASCII). -/
def strToLower (s : String) : String := String.mk (s.data.map Char.toLower)

/-- JavaScript truthiness of a `string | null | undefined` value: `null`,
`undefined` and the empty string are falsy. -/
def truthy : Option String → Bool
  | none => false
  | some s => !(s == "")

/-- One rewrite step list form of the regex replacement `\n{3,}` → `"\n\n"`:
every maximal run of three or more newlines collapses to exactly two. -/
def squeezeChars : List Char → List Char
  | c1 :: c2 :: c3 :: rest =>
    if c1 = '\n' && c2 = '\n' && c3 = '\n' then squeezeChars (c2 :: c3 :: rest)
    else c1 :: squeezeChars (c2 :: c3 :: rest)
  | l => l

/-- Models `.replace(/\n{3,}/g, "\n\n")`. -/
def squeezeNewlines (s : String) : String := String.mk (squeezeChars s.data)

/-- Models `String.prototype.trim`: drop whitespace from both ends (the
whitespace classes that occur in this repository's text). -/
def jsTrim (s : String) : String :=
  String.mk ((((s.data.dropWhile Char.isWhitespace).reverse).dropWhile Char.isWhitespace).reverse)

/-- Lexicographic comparison of character lists (by code point): the order
underlying both `localeCompare` and the default `Array.prototype.sort`
comparator in this embedding (see the header comment). -/
def charsLe : List Char → List Char → Bool
  | [], _ => true
  | _ :: _, [] => false
  | a :: as, b :: bs => if a = b then charsLe as bs else decide (a < b)

/-- Lexicographic order on strings. -/
def strLe (a b : String) : Prop := charsLe a.data b.data = true

instance : DecidableRel strLe :=
  fun a b => inferInstanceAs (Decidable (charsLe a.data b.data = true))

/-- Stable sort of strings by the comparator `(a, b) => a.localeCompare(b)`
(modelled as the lexicographic order; since that order is antisymmetric,
any stable sort returns the same list, so `insertionSort` is a faithful
model of `Array.prototype.sort`). -/
def sortStrings (l : List String) : List String :=
  List.insertionSort strLe l

/-- Insertion into a JavaScript `Set`'s insertion-ordered element list. -/
def jsSetInsert (s : List String) (x : String) : List String :=
  if x ∈ s then s else s ++ [x]

/-- The element list of a JavaScript `Set` built by inserting the elements of
`l` in order: first occurrences survive, in order of first insertion. -/
def jsSetList (l : List String) : List String := l.foldl jsSetInsert []

/-! ## Data model (`compiler/types.ts`) -/

/-- A prompt module record (`types.ts`). `category` is a plain string in the
source schema. -/
structure PromptModule where
  id : String
  category : String
  label : String
  prompt_text : String
  constraints : List String
deriving Repr, DecidableEq

/-- The loaded module library: lookup by id plus the list of global-rule
modules (`types.ts`). The `byId` record is modelled as a partial map. -/
structure PromptLibrary where
  byId : String → Option PromptModule
  globals : List PromptModule

/-- Compiler input (`types.ts`). The optional `variation_ids` field is
modelled as a plain list; the code treats a missing field exactly like an
empty list. -/
structure CompileInput where
  character_ref : Option String
  product_ref : Option String
  environment_ref : Option String
  selected_modules : List String
  variation_ids : List String
deriving Repr, DecidableEq

/-- Compiler output (`types.ts`). -/
structure CompileOutput where
  prompt : String
  usedModuleIds : List String
  dedupedConstraints : List String
deriving Repr, DecidableEq

/-! ## Formatting helpers (`compiler/assembleFrames.ts`) -/

/-- `formatSection` from `assembleFrames.ts`. -/
def formatSection (title : String) (blocks : List String) : String :=
  let cleaned := (blocks.map jsTrim).filter (fun b => b.length > 0)
  if cleaned.length == 0 then ""
  else title ++ "\n" ++ String.intercalate "\n\n" cleaned ++ "\n"

/-- `formatConstraints` from `assembleFrames.ts`. -/
def formatConstraints (constraints : List String) : String :=
  let cleaned := (constraints.map jsTrim).filter (fun c => c.length > 0)
  if cleaned.length == 0 then ""
  else "CONSTRAINTS\n" ++ String.intercalate "\n" (cleaned.map (fun c => "- " ++ c)) ++ "\n"

/-- `formatIdentity` from `assembleFrames.ts`; each line is emitted when the
corresponding reference is truthy. -/
def formatIdentity (input : CompileInput) : String :=
  let lines :=
    (if truthy input.character_ref then
      ["Use the uploaded CHARACTER REFERENCE IMAGE as the exact identity."] else []) ++
    (if truthy input.product_ref then
      ["Use the uploaded PRODUCT REFERENCE IMAGE as the exact source."] else []) ++
    (if truthy input.environment_ref then
      ["Use the uploaded ENVIRONMENT REFERENCE IMAGE as the spatial anchor."] else [])
  let lines := if lines.length == 0 then ["No reference images specified."] else lines
  String.intercalate "\n" lines

/-! ## Fail-fast validation (`compiler/enforceConstraints.ts`) -/

/-- `validateReferences` from `enforceConstraints.ts`: substring checks on
`prompt_text`, failing fast on the first missing required reference. -/
def validateReferences (modules : List PromptModule) (input : CompileInput) :
    Except String Unit :=
  let needsCharacter := modules.any (fun m => containsStr m.prompt_text "CHARACTER REFERENCE IMAGE")
  let needsProduct := modules.any (fun m => containsStr m.prompt_text "PRODUCT REFERENCE IMAGE")
  let needsEnvironment := modules.any (fun m => containsStr m.prompt_text "ENVIRONMENT REFERENCE IMAGE")
  if needsCharacter && !truthy input.character_ref then
    .error ("Character reference required: a selected module mentions " ++
      q "CHARACTER REFERENCE IMAGE" ++ ".")
  else if needsProduct && !truthy input.product_ref then
    .error ("Product reference required: a selected module mentions " ++
      q "PRODUCT REFERENCE IMAGE" ++ ".")
  else if needsEnvironment && !truthy input.environment_ref then
    .error ("Environment reference required: a selected module mentions " ++
      q "ENVIRONMENT REFERENCE IMAGE" ++ ".")
  else .ok ()

/-- `assertUniqueModuleIds` from `enforceConstraints.ts`: throws on the first
repeated id. The `seen` accumulator plays the role of the JS `Set`. -/
def assertUniqueGo (seen : List String) : List String → Except String Unit
  | [] => .ok ()
  | id :: rest =>
    if id ∈ seen then .error ("Duplicate module id selected: " ++ q id)
    else assertUniqueGo (id :: seen) rest

/-- Entry point of the duplicate-id check. -/
def assertUniqueModuleIds (ids : List String) : Except String Unit :=
  assertUniqueGo [] ids

/-! ## The compiler (`compiler/compilePrompt.ts`) -/

/-- Resolution of selected ids against the library (`compilePrompt.ts`
lines 26-30); throws on the first unknown id. -/
def resolveSelected (library : PromptLibrary) : List String → Except String (List PromptModule)
  | [] => .ok []
  | id :: rest =>
    match library.byId id with
    | none => .error ("Unknown module id: " ++ q id)
    | some m =>
      match resolveSelected library rest with
      | .error e => .error e
      | .ok ms => .ok (m :: ms)

/-- All constraint strings of the resolved modules, in iteration order
(`for (const m of resolved) for (const c of m.constraints)`). -/
def allConstraints (ms : List PromptModule) : List String :=
  ms.flatMap (fun m => m.constraints)

/-- Lines 34-39 of `compilePrompt.ts`: collect constraints into a `Set`
(dedup by exact equality, first-insertion order), then trim each element,
drop the ones that became empty, and sort by `localeCompare`. -/
def dedupeConstraints (ms : List PromptModule) : List String :=
  sortStrings (((jsSetList (allConstraints ms)).map jsTrim).filter (fun c => !(c == "")))

/-- `CATEGORY_ORDER` from `compilePrompt.ts`: category key and section
title, in canonical order. -/
def CATEGORY_ORDER : List (String × String) :=
  [("facial_pose", "FACIAL POSES"),
   ("anatomy_pose", "ANATOMY / BODY"),
   ("apparel_textile", "APPAREL / TEXTILE"),
   ("product", "PRODUCT / MACRO"),
   ("cinematography", "CINEMATOGRAPHY")]

/-- Ordering of modules by id, the within-category comparator
`(a, b) => a.id.localeCompare(b.id)`. -/
def moduleLe (a b : PromptModule) : Prop := strLe a.id b.id

instance : DecidableRel moduleLe :=
  fun a b => inferInstanceAs (Decidable (charsLe a.id.data b.id.data = true))

/-- The group `byCategory[cat]` (selection order preserved by the grouping
loop) after the within-category stable sort by id. -/
def categoryModules (resolved : List PromptModule) (cat : String) : List PromptModule :=
  List.insertionSort moduleLe (resolved.filter (fun m => m.category == cat))

/-- Lines 53-70 of `compilePrompt.ts`: assemble the block list, join with
single newlines, collapse runs of three or more newlines, trim, and append
the final newline. -/
def buildPrompt (input : CompileInput) (library : PromptLibrary)
    (resolved : List PromptModule) (ded : List String) : String :=
  let blocks :=
    [formatSection "IDENTITY & REFERENCES" [formatIdentity input],
     formatSection "GLOBAL RULES" (library.globals.map (fun g => g.prompt_text))] ++
    CATEGORY_ORDER.map (fun co =>
      formatSection co.2 ((categoryModules resolved co.1).map (fun m => m.prompt_text))) ++
    (if input.variation_ids.length > 0 then [formatSection "VARIATIONS" input.variation_ids] else []) ++
    [formatConstraints ded]
  jsTrim (squeezeNewlines (String.intercalate "\n" blocks)) ++ "\n"

/-- `compilePrompt` from `compilePrompt.ts`. Thrown errors become `.error`. -/
def compilePrompt (input : CompileInput) (library : PromptLibrary) :
    Except String CompileOutput :=
  match assertUniqueModuleIds input.selected_modules with
  | .error e => .error e
  | .ok _ =>
    match resolveSelected library input.selected_modules with
    | .error e => .error e
    | .ok resolved =>
      match validateReferences resolved input with
      | .error e => .error e
      | .ok _ =>
        let ded := dedupeConstraints resolved
        .ok { prompt := buildPrompt input library resolved ded,
              usedModuleIds := resolved.map (fun m => m.id),
              dedupedConstraints := ded }

/-! ## The state machine (`compiler/stateMachine.ts`) -/

/-- The `Scope` union type. -/
inductive Scope where
  | full_body | face_only | hands_only | environment_only | mixed
deriving Repr, DecidableEq

/-- The `requires` component of `DerivedModuleMeta`. -/
structure Requires where
  character : Bool
  product : Bool
  environment : Bool
deriving Repr, DecidableEq

/-- `DerivedModuleMeta` from `stateMachine.ts`. -/
structure DerivedModuleMeta where
  requires : Requires
  scope : Scope
  category : String
deriving Repr, DecidableEq

/-- The three reference slots. -/
inductive RefSlot where
  | character | product | environment
deriving Repr, DecidableEq

/-- The `refs` component of `AppState`. -/
structure Refs where
  character : Option String
  product : Option String
  environment : Option String
deriving Repr, DecidableEq

/-- The five selectable category keys (`keyof AppState["selected"]`). -/
inductive SelKey where
  | facial_pose | anatomy_pose | apparel_textile | product | cinematography
deriving Repr, DecidableEq

/-- The `selected` component of `AppState`: one id list per category. -/
structure Selected where
  facial_pose : List String
  anatomy_pose : List String
  apparel_textile : List String
  product : List String
  cinematography : List String
deriving Repr, DecidableEq

/-- A stored compile result: `CompileOutput` extended with the fingerprint. -/
structure CompiledResult where
  prompt : String
  usedModuleIds : List String
  dedupedConstraints : List String
  fingerprint : String
deriving Repr, DecidableEq

/-- `AppState` from `stateMachine.ts`. `compiled` is `none` for both `null`
and `undefined` (the code normalizes with `?? null`). -/
structure AppState where
  refs : Refs
  selected : Selected
  variations : List String
  compiled : Option CompiledResult
  errors : List String
deriving Repr, DecidableEq

/-- The event union type. -/
inductive Event where
  | SET_REF (slot : RefSlot) (value : Option String)
  | CLEAR_REF (slot : RefSlot)
  | SELECT_MODULE (moduleId : String)
  | DESELECT_MODULE (moduleId : String)
  | CLEAR_CATEGORY (category : SelKey)
  | ADD_VARIATION (variationId : String)
  | REMOVE_VARIATION (variationId : String)
  | COMPILE
deriving Repr, DecidableEq

/-- `initialState` from `stateMachine.ts`. -/
def initialState : AppState :=
  { refs := { character := none, product := none, environment := none },
    selected := { facial_pose := [], anatomy_pose := [], apparel_textile := [],
                  product := [], cinematography := [] },
    variations := [],
    compiled := none,
    errors := [] }

/-- `deriveMeta` from `stateMachine.ts`: requirements from literal marker
substrings, scope by the first matching rule. (`module.prompt_text ?? ""` is
the identity here because `prompt_text` is a non-optional string field.) -/
def deriveMeta (module : PromptModule) : DerivedModuleMeta :=
  let t := module.prompt_text
  let requires : Requires :=
    { character := containsStr t "CHARACTER REFERENCE IMAGE",
      product := containsStr t "PRODUCT REFERENCE IMAGE",
      environment := containsStr t "ENVIRONMENT REFERENCE IMAGE" }
  let upper := strToUpper t
  let scope : Scope :=
    if containsStr upper "HANDS ONLY" then .hands_only
    else if requires.environment && !requires.character && !requires.product then .environment_only
    else if module.category == "facial_pose" then .face_only
    else if containsStr (strToLower t) "facial close-up" ||
            containsStr (strToLower t) "extreme facial close-up" then .face_only
    else .full_body
  { requires := requires, scope := scope, category := module.category }

/-- `flattenSelected` from `stateMachine.ts`. -/
def flattenSelected (selected : Selected) : List String :=
  selected.facial_pose ++ selected.anatomy_pose ++ selected.apparel_textile ++
    selected.product ++ selected.cinematography

/-- Total resolution of a list of ids; `none` models the `resolveModules`
throw on an id absent from the library. -/
def resolveIds (library : PromptLibrary) : List String → Option (List PromptModule)
  | [] => some []
  | id :: rest =>
    match library.byId id with
    | none => none
    | some m => (resolveIds library rest).map (fun ms => m :: ms)

/-- `resolveModules` from `stateMachine.ts`. -/
def resolveModules (state : AppState) (library : PromptLibrary) :
    Option (List PromptModule) :=
  resolveIds library (flattenSelected state.selected)

/-- `anyScope` from `stateMachine.ts`. -/
def anyScope (metas : List DerivedModuleMeta) (scope : Scope) : Bool :=
  metas.any (fun m => m.scope == scope)

/-- `validateState` from `stateMachine.ts`: reference errors in slot order,
then the two scope-exclusivity errors; `none` models the throw from
`resolveModules` on an unknown selected id. -/
def validateState (state : AppState) (library : PromptLibrary) :
    Option (List String) :=
  match resolveModules state library with
  | none => none
  | some modules =>
    let metas := modules.map deriveMeta
    let needsCharacter := metas.any (fun m => m.requires.character)
    let needsProduct := metas.any (fun m => m.requires.product)
    let needsEnvironment := metas.any (fun m => m.requires.environment)
    let selectedCount := metas.length
    some (
      (if needsCharacter && !truthy state.refs.character then ["Missing character reference."] else []) ++
      (if needsProduct && !truthy state.refs.product then ["Missing product reference."] else []) ++
      (if needsEnvironment && !truthy state.refs.environment then ["Missing environment reference."] else []) ++
      (if anyScope metas .hands_only && selectedCount > 1 then
        ["Hands-only module cannot be combined with other modules in v1."] else []) ++
      (if anyScope metas .environment_only && selectedCount > 1 then
        ["Environment-only module cannot be combined with other modules in v1."] else []))

/-- `violatesScopeOnSelect` from `stateMachine.ts`. The outer `Option` is the
possible throw from `resolveModules`; the inner `Option String` is the
function's `string | null` result. -/
def violatesScopeOnSelect (nextModule : PromptModule) (state : AppState)
    (library : PromptLibrary) : Option (Option String) :=
  match resolveModules state library with
  | none => none
  | some mods =>
    let nextMeta := deriveMeta nextModule
    let existingMetas := mods.map deriveMeta
    some (
      if existingMetas.length == 0 then none
      else if nextMeta.scope == .hands_only then
        some "Hands-only module must be used alone in v1."
      else if anyScope existingMetas .hands_only then
        some "Cannot add modules when a hands-only module is selected in v1."
      else if nextMeta.scope == .environment_only then
        some "Environment-only module must be used alone in v1."
      else if anyScope existingMetas .environment_only then
        some "Cannot add modules when an Environment-only module is selected in v1."
      else none)

/-! ## Fingerprint (`stateMachine.ts` lines 223-245) -/

/-- One hexadecimal digit, lowercase, as `Number.prototype.toString(16)`
renders it. -/
def hexDigitChar (d : Nat) : Char :=
  if d < 10 then Char.ofNat (48 + d) else Char.ofNat (87 + d)

/-- Accumulate the base-16 digits of `n` (most significant first): the
divide-by-16 loop of `Number.prototype.toString(16)`. The `fuel` argument
only forces structural termination; the loop needs at most `log16 n + 1`
steps, so any `fuel ≥ n ≥ 1` never runs out. -/
def toHexGo (fuel : Nat) (n : Nat) (acc : List Char) : List Char :=
  match fuel with
  | 0 => acc
  | fuel + 1 => if n = 0 then acc else toHexGo fuel (n / 16) (hexDigitChar (n % 16) :: acc)

/-- Models `n.toString(16)` for a nonnegative integer: no zero padding. -/
def toHexString (n : Nat) : String :=
  if n = 0 then "0" else String.mk (toHexGo n n [])

/-- One step of the `djb2` loop: `hash = ((hash << 5) + hash) ^ code`, with
JavaScript 32-bit wrapping; the running value is kept as its unsigned 32-bit
bit pattern. -/
def djb2Step (h c : Nat) : Nat := (h * 33 % 4294967296) ^^^ c

/-- `djb2` from `stateMachine.ts`, including the final `>>> 0`. -/
def djb2 (s : String) : Nat :=
  s.data.foldl (fun h c => djb2Step h c.toNat) 5381

/-- JSON string escaping as performed by `JSON.stringify` on a string. -/
def jsonEscapeChar (c : Char) : String :=
  if c = Char.ofNat 34 then "\\" ++ (Char.ofNat 34).toString
  else if c = Char.ofNat 92 then "\\\\"
  else if c = '\n' then "\\n"
  else if c = Char.ofNat 13 then "\\r"
  else if c = '\t' then "\\t"
  else if c = Char.ofNat 8 then "\\b"
  else if c = Char.ofNat 12 then "\\f"
  else if c.toNat < 32 then
    "\\u00" ++ (hexDigitChar (c.toNat / 16)).toString ++ (hexDigitChar (c.toNat % 16)).toString
  else c.toString

/-- `JSON.stringify` of a string value. -/
def jsonQuote (s : String) : String :=
  (Char.ofNat 34).toString ++ String.join (s.data.map jsonEscapeChar) ++ (Char.ofNat 34).toString

/-- `stableStringify` of a `string | null` leaf. -/
def jsonOptStr : Option String → String
  | none => "null"
  | some s => jsonQuote s

/-- `stableStringify` of an array of strings. -/
def jsonStrArray (l : List String) : String :=
  "[" ++ String.intercalate "," (l.map jsonQuote) ++ "]"

/-- `stableStringify` applied to the fingerprint payload
`refs / selected / variations-sorted` of a state: object keys are rendered
in sorted order exactly as `Object.keys(rec).sort()` produces them
(`character < environment < product`, `anatomy_pose < apparel_textile <
cinematography < facial_pose < product`, `refs < selected < variations`). -/
def fingerprintPayload (state : AppState) : String :=
  "\x7b" ++ jsonQuote "refs" ++ ":" ++
    ("\x7b" ++ jsonQuote "character" ++ ":" ++ jsonOptStr state.refs.character ++ "," ++
      jsonQuote "environment" ++ ":" ++ jsonOptStr state.refs.environment ++ "," ++
      jsonQuote "product" ++ ":" ++ jsonOptStr state.refs.product ++ "\x7d") ++ "," ++
  jsonQuote "selected" ++ ":" ++
    ("\x7b" ++ jsonQuote "anatomy_pose" ++ ":" ++ jsonStrArray state.selected.anatomy_pose ++ "," ++
      jsonQuote "apparel_textile" ++ ":" ++ jsonStrArray state.selected.apparel_textile ++ "," ++
      jsonQuote "cinematography" ++ ":" ++ jsonStrArray state.selected.cinematography ++ "," ++
      jsonQuote "facial_pose" ++ ":" ++ jsonStrArray state.selected.facial_pose ++ "," ++
      jsonQuote "product" ++ ":" ++ jsonStrArray state.selected.product ++ "\x7d") ++ "," ++
  jsonQuote "variations" ++ ":" ++ jsonStrArray (sortStrings state.variations) ++ "\x7d"

/-- `fingerprint` from `stateMachine.ts`. -/
def fingerprint (state : AppState) : String :=
  toHexString (djb2 (fingerprintPayload state))

/-! ## The reducer (`stateMachine.ts` lines 247-376) -/

/-- `findCategoryKeyForModule` from `stateMachine.ts`. -/
def findCategoryKeyForModule (mod : PromptModule) : Option SelKey :=
  if mod.category == "facial_pose" then some .facial_pose
  else if mod.category == "anatomy_pose" then some .anatomy_pose
  else if mod.category == "apparel_textile" then some .apparel_textile
  else if mod.category == "product" then some .product
  else if mod.category == "cinematography" then some .cinematography
  else none

/-- Read one category's selection list. -/
def getSel (s : Selected) : SelKey → List String
  | .facial_pose => s.facial_pose
  | .anatomy_pose => s.anatomy_pose
  | .apparel_textile => s.apparel_textile
  | .product => s.product
  | .cinematography => s.cinematography

/-- Replace one category's selection list. -/
def setSel (s : Selected) (k : SelKey) (l : List String) : Selected :=
  match k with
  | .facial_pose => { s with facial_pose := l }
  | .anatomy_pose => { s with anatomy_pose := l }
  | .apparel_textile => { s with apparel_textile := l }
  | .product => { s with product := l }
  | .cinematography => { s with cinematography := l }

/-- Write one reference slot (`next.refs[event.slot] = value`). -/
def setRefSlot (r : Refs) (slot : RefSlot) (v : Option String) : Refs :=
  match slot with
  | .character => { r with character := v }
  | .product => { r with product := v }
  | .environment => { r with environment := v }

/-- `makeCompileInput` from `stateMachine.ts`. -/
def makeCompileInput (state : AppState) : CompileInput :=
  { character_ref := state.refs.character,
    product_ref := state.refs.product,
    environment_ref := state.refs.environment,
    selected_modules := flattenSelected state.selected,
    variation_ids := state.variations }

/-- The `applyErrors` closure in `reduce`: re-validate, store the error list,
and null `compiled` when any error is present. `none` propagates the
`validateState` throw. -/
def applyErrors (next : AppState) (library : PromptLibrary) : Option AppState :=
  (validateState next library).map (fun errs =>
    { next with errors := errs,
                compiled := if errs.length > 0 then none else next.compiled })

/-- `reduce` from `stateMachine.ts`. The defensive copy at the top of the
source is the identity on immutable values (its `errors: []` reset is dead:
every branch overwrites `errors`), so each branch works on `state` directly.
`none` models an exception escaping `reduce`. -/
def reduce (state : AppState) (event : Event) (library : PromptLibrary) :
    Option AppState :=
  match event with
  | .SET_REF slot value =>
    applyErrors { state with refs := setRefSlot state.refs slot value } library
  | .CLEAR_REF slot =>
    applyErrors { state with refs := setRefSlot state.refs slot none } library
  | .ADD_VARIATION variationId =>
    applyErrors
      { state with variations :=
          if variationId ∈ state.variations then state.variations
          else state.variations ++ [variationId] } library
  | .REMOVE_VARIATION variationId =>
    applyErrors
      { state with variations := state.variations.filter (fun v => v ≠ variationId) } library
  | .CLEAR_CATEGORY category =>
    applyErrors { state with selected := setSel state.selected category [] } library
  | .DESELECT_MODULE moduleId =>
    let selected :=
      match library.byId moduleId with
      | some mod =>
        match findCategoryKeyForModule mod with
        | some key =>
          setSel state.selected key ((getSel state.selected key).filter (fun id => id ≠ moduleId))
        | none => state.selected
      | none =>
        { facial_pose := state.selected.facial_pose.filter (fun id => id ≠ moduleId),
          anatomy_pose := state.selected.anatomy_pose.filter (fun id => id ≠ moduleId),
          apparel_textile := state.selected.apparel_textile.filter (fun id => id ≠ moduleId),
          product := state.selected.product.filter (fun id => id ≠ moduleId),
          cinematography := state.selected.cinematography.filter (fun id => id ≠ moduleId) }
    applyErrors { state with selected := selected } library
  | .SELECT_MODULE moduleId =>
    match library.byId moduleId with
    | none =>
      some { state with errors := ["Unknown module id: " ++ q moduleId], compiled := none }
    | some mod =>
      match violatesScopeOnSelect mod state library with
      | none => none
      | some (some scopeError) =>
        some { state with errors := [scopeError], compiled := none }
      | some none =>
        match findCategoryKeyForModule mod with
        | none =>
          some { state with
                 errors := ["Unsupported module category for selection: " ++ q mod.category],
                 compiled := none }
        | some key =>
          applyErrors { state with selected := setSel state.selected key [mod.id] } library
  | .COMPILE =>
    match validateState state library with
    | none => none
    | some errs =>
      if errs.length > 0 then
        some { state with errors := errs, compiled := none }
      else
        match compilePrompt (makeCompileInput state) library with
        | .error _ => none
        | .ok out =>
          some { state with
                 compiled := some { prompt := out.prompt,
                                    usedModuleIds := out.usedModuleIds,
                                    dedupedConstraints := out.dedupedConstraints,
                                    fingerprint := fingerprint state },
                 errors := [] }

/-! ## Specification-side definitions and concrete fixtures -/

/-- The library well-formedness invariant from the data model: `byId` maps
every key to a module whose `id` is that key (guaranteed by library
construction, which stores each module under its own id). -/
def WellFormedLibrary (library : PromptLibrary) : Prop :=
  ∀ k m, library.byId k = some m → m.id = k

/-- Written from the amended Claim 2: take the union of the resolved
modules' constraint strings deduplicated by exact string equality, trim
each survivor, drop the ones that became empty, and sort ascending. -/
def specDedupedConstraints (ms : List PromptModule) : List String :=
  sortStrings ((((allConstraints ms).dedup).map jsTrim).filter (fun c => !(c == "")))

/-- The state invariant of Claim 6: a non-empty error list means no stored
compile output. -/
def ErrorsCompiledInv (s : AppState) : Prop := s.errors ≠ [] → s.compiled = none

/-- The `SELECT_MODULE` early-return paths of `reduce` that set `errors`
directly instead of re-running `validateState`: unknown module id, a firing
scope pre-check (or a throwing one), and an unselectable category. -/
def selectRejected (state : AppState) (event : Event) (library : PromptLibrary) : Bool :=
  match event with
  | .SELECT_MODULE moduleId =>
    match library.byId moduleId with
    | none => true
    | some mod =>
      match violatesScopeOnSelect mod state library with
      | some none => (findCategoryKeyForModule mod).isNone
      | _ => true
  | _ => false

/-- Hexadecimal digit predicate (lowercase, as `toString(16)` emits). -/
def isHexDigit (c : Char) : Bool :=
  (48 ≤ c.toNat && c.toNat ≤ 57) || (97 ≤ c.toNat && c.toNat ≤ 102)

/-- A library with no modules at all. -/
def emptyLib : PromptLibrary := { byId := fun _ => none, globals := [] }

/-- Fixture: an ordinary full-body anatomy module. -/
def modPlain : PromptModule :=
  { id := "plain", category := "anatomy_pose", label := "Plain",
    prompt_text := "standing pose", constraints := [] }

/-- Fixture: a hands-only anatomy module (same category as `modPlain`). -/
def modHands : PromptModule :=
  { id := "hands", category := "anatomy_pose", label := "Hands",
    prompt_text := "HANDS ONLY macro", constraints := [] }

/-- Fixture library holding `modPlain` and `modHands`. -/
def libHands : PromptLibrary :=
  { byId := fun k =>
      if k = "plain" then some modPlain
      else if k = "hands" then some modHands
      else none,
    globals := [] }

/-- Fixture state with `modPlain` selected in `anatomy_pose` and nothing
else anywhere. -/
def statePlain : AppState :=
  { initialState with selected := { initialState.selected with anatomy_pose := ["plain"] } }

/-- Fixture: a facial-pose module with two constraints, no reference
markers. -/
def modA : PromptModule :=
  { id := "a1", category := "facial_pose", label := "A",
    prompt_text := "pose a", constraints := ["c2", "c1"] }

/-- Fixture: an anatomy module sharing constraint `"c1"` with `modA`. -/
def modB : PromptModule :=
  { id := "b1", category := "anatomy_pose", label := "B",
    prompt_text := "pose b", constraints := ["c1"] }

/-- Fixture library holding `modA` and `modB`. -/
def libAB : PromptLibrary :=
  { byId := fun k =>
      if k = "a1" then some modA
      else if k = "b1" then some modB
      else none,
    globals := [] }

/-- Fixture compile input selecting `modA` then `modB`. -/
def inAB : CompileInput :=
  { character_ref := none, product_ref := none, environment_ref := none,
    selected_modules := ["a1", "b1"], variation_ids := [] }

/-- Fixture: a module whose two constraints differ only in surrounding
whitespace, so they survive exact-equality dedup and collide after trim. -/
def modTrim : PromptModule :=
  { id := "t1", category := "product", label := "T",
    prompt_text := "macro shot", constraints := ["x ", " x"] }

/-- Fixture library holding `modTrim`. -/
def libTrim : PromptLibrary :=
  { byId := fun k => if k = "t1" then some modTrim else none, globals := [] }

/-- Fixture compile input selecting `modTrim`. -/
def inTrim : CompileInput :=
  { character_ref := none, product_ref := none, environment_ref := none,
    selected_modules := ["t1"], variation_ids := [] }

/-- Fixture state whose selection holds an id absent from every library. -/
def ghostState : AppState :=
  { initialState with selected := { initialState.selected with facial_pose := ["ghost"] } }

/-- Fixture state used for the reducer witnesses: one variation added. -/
def varState : AppState := { initialState with variations := ["v"] }

/-- Fixture state whose fingerprint is 7 hex characters long. -/
def shortHashState : AppState := { initialState with variations := ["0"] }


/-- Fixture state for the fingerprint witness: variations in one order,
plus an error, no compiled output. -/
def fpStateA : AppState :=
  { initialState with
    variations := ["b", "a"]
    errors := ["boom"] }

/-- Fixture state for the fingerprint witness: same semantic content as
`fpStateA` with variations reordered, no errors, and a stored compile
output. -/
def fpStateB : AppState :=
  { initialState with
    variations := ["a", "b"]
    compiled := some { prompt := "p", usedModuleIds := [], dedupedConstraints := [], fingerprint := "f" } }

/-- Fixture state with a character reference set. -/
def setRefState : AppState :=
  { initialState with
    refs := { character := some "r", product := none, environment := none } }

/-- The state produced by the rejected hands-only selection: `statePlain`
with the single scope error and no compiled output. -/
def rejState : AppState :=
  { statePlain with errors := ["Hands-only module must be used alone in v1."], compiled := none }

/-! ## Helper lemmas -/

theorem perm_any {α : Type} {l₁ l₂ : List α} (p : α → Bool) (h : l₁.Perm l₂) :
    l₁.any p = l₂.any p := by
  rw [Bool.eq_iff_iff, List.any_eq_true, List.any_eq_true]
  constructor
  · rintro ⟨x, hx, hpx⟩
    exact ⟨x, h.mem_iff.mp hx, hpx⟩
  · rintro ⟨x, hx, hpx⟩
    exact ⟨x, h.mem_iff.mpr hx, hpx⟩

theorem charsLe_total : ∀ l₁ l₂ : List Char, charsLe l₁ l₂ = true ∨ charsLe l₂ l₁ = true := by
  intro l₁
  induction l₁ with
  | nil => intro l₂; left; rfl
  | cons a as ih =>
    intro l₂
    cases l₂ with
    | nil => right; rfl
    | cons b bs =>
      simp only [charsLe]
      by_cases hab : a = b
      · subst hab
        rw [if_pos rfl, if_pos rfl]
        exact ih bs
      · rcases lt_or_gt_of_ne hab with h | h
        · left; rw [if_neg hab]; exact decide_eq_true h
        · right; rw [if_neg (Ne.symm hab)]; exact decide_eq_true h

theorem charsLe_trans : ∀ l₁ l₂ l₃ : List Char,
    charsLe l₁ l₂ = true → charsLe l₂ l₃ = true → charsLe l₁ l₃ = true := by
  intro l₁
  induction l₁ with
  | nil => intro l₂ l₃ h1 h2; rfl
  | cons a as ih =>
    intro l₂ l₃ h1 h2
    cases l₂ with
    | nil => simp [charsLe] at h1
    | cons b bs =>
      cases l₃ with
      | nil => simp [charsLe] at h2
      | cons c cs =>
        simp only [charsLe] at h1 h2 ⊢
        by_cases hab : a = b
        · subst hab
          rw [if_pos rfl] at h1
          by_cases hac : a = c
          · subst hac; rw [if_pos rfl] at h2 ⊢; exact ih bs cs h1 h2
          · rw [if_neg hac] at h2 ⊢; exact h2
        · rw [if_neg hab] at h1
          have hab' : a < b := of_decide_eq_true h1
          by_cases hbc : b = c
          · subst hbc
            rw [if_neg hab]
            exact decide_eq_true hab'
          · rw [if_neg hbc] at h2
            have hbc' : b < c := of_decide_eq_true h2
            have hac : a < c := lt_trans hab' hbc'
            rw [if_neg (ne_of_lt hac)]
            exact decide_eq_true hac

theorem charsLe_antisymm : ∀ l₁ l₂ : List Char,
    charsLe l₁ l₂ = true → charsLe l₂ l₁ = true → l₁ = l₂ := by
  intro l₁
  induction l₁ with
  | nil =>
    intro l₂ h1 h2
    cases l₂ with
    | nil => rfl
    | cons b bs => simp [charsLe] at h2
  | cons a as ih =>
    intro l₂ h1 h2
    cases l₂ with
    | nil => simp [charsLe] at h1
    | cons b bs =>
      simp only [charsLe] at h1 h2
      by_cases hab : a = b
      · subst hab
        rw [if_pos rfl] at h1 h2
        rw [ih bs h1 h2]
      · rw [if_neg hab] at h1
        rw [if_neg (Ne.symm hab)] at h2
        exact absurd (of_decide_eq_true h2) (lt_asymm (of_decide_eq_true h1))

theorem strLe_total : ∀ a b : String, strLe a b ∨ strLe b a :=
  fun a b => charsLe_total a.data b.data

theorem strLe_trans : ∀ a b c : String, strLe a b → strLe b c → strLe a c :=
  fun a b c => charsLe_trans a.data b.data c.data

theorem strLe_antisymm {a b : String} (h1 : strLe a b) (h2 : strLe b a) : a = b := by
  cases a with
  | mk da =>
    cases b with
    | mk db =>
      have := charsLe_antisymm da db h1 h2
      rw [this]

theorem moduleLe_total : ∀ a b : PromptModule, moduleLe a b ∨ moduleLe b a :=
  fun a b => charsLe_total a.id.data b.id.data

theorem moduleLe_trans : ∀ a b c : PromptModule, moduleLe a b → moduleLe b c → moduleLe a c :=
  fun a b c => charsLe_trans a.id.data b.id.data c.id.data

theorem sortStrings_eq_of_perm {l₁ l₂ : List String} (h : l₁.Perm l₂) :
    sortStrings l₁ = sortStrings l₂ := by
  refine @List.Perm.eq_of_sorted String strLe _ _ ?_ ?_ ?_ ?_
  · exact fun a b _ _ h1 h2 => strLe_antisymm h1 h2
  · exact @List.sorted_insertionSort String strLe _ ⟨strLe_total⟩ ⟨strLe_trans⟩ l₁
  · exact @List.sorted_insertionSort String strLe _ ⟨strLe_total⟩ ⟨strLe_trans⟩ l₂
  · exact (List.perm_insertionSort _ l₁).trans (h.trans (List.perm_insertionSort _ l₂).symm)

theorem applyErrors_eq_some {next s' : AppState} {library : PromptLibrary}
    (h : applyErrors next library = some s') :
    ∃ errs, validateState next library = some errs ∧
      s' = { next with
             errors := errs
             compiled := if errs.length > 0 then none else next.compiled } := by
  unfold applyErrors at h
  cases hv : validateState next library with
  | none => rw [hv] at h; simp at h
  | some errs =>
    rw [hv] at h
    simp only [Option.map_some', Option.some.injEq] at h
    exact ⟨errs, rfl, h.symm⟩

theorem applyErrors_inv {next s' : AppState} {library : PromptLibrary}
    (h : applyErrors next library = some s') : ErrorsCompiledInv s' := by
  obtain ⟨errs, -, rfl⟩ := applyErrors_eq_some h
  intro hne
  dsimp only at hne ⊢
  have hp : errs.length > 0 := List.length_pos.mpr hne
  simp [hp]

theorem applyErrors_frame {next s' : AppState} {library : PromptLibrary}
    (h : applyErrors next library = some s') (he : s'.errors = []) :
    s'.compiled = next.compiled := by
  obtain ⟨errs, -, rfl⟩ := applyErrors_eq_some h
  dsimp only at he ⊢
  simp [he]

/-! ## Claims -/

/-- C10: `deriveMeta` never assigns the scope `mixed`; every derived scope
is one of the four other members, so no validation rule can fire on
`mixed`. -/
theorem deriveMeta_scope_ne_mixed (m : PromptModule) :
    (deriveMeta m).scope ≠ Scope.mixed := by
  dsimp only [deriveMeta]
  split <;> try (intro h; exact Scope.noConfusion h)
  split <;> try (intro h; exact Scope.noConfusion h)
  split <;> try (intro h; exact Scope.noConfusion h)
  split <;> (intro h; exact Scope.noConfusion h)

/-- C7: `fingerprint` depends only on the semantic content of a state:
equal refs, equal per-category selections, and variations equal up to
reordering give equal fingerprints, whatever the `compiled` and `errors`
fields hold. -/
theorem fingerprint_pure (s₁ s₂ : AppState) (h1 : s₁.refs = s₂.refs)
    (h2 : s₁.selected = s₂.selected) (h3 : s₁.variations.Perm s₂.variations) :
    fingerprint s₁ = fingerprint s₂ := by
  unfold fingerprint fingerprintPayload
  rw [h1, h2, sortStrings_eq_of_perm h3]

/-- Witness for C7 at two concrete states with reordered variations and
different `compiled`/`errors` fields. -/
theorem fingerprint_pure_witness : fingerprint fpStateA = fingerprint fpStateB :=
  fingerprint_pure fpStateA fpStateB rfl rfl (by decide)

/-- C6: every `reduce` transition preserves the invariant that a non-empty
error list implies no stored compile output. -/
theorem reduce_preserves_inv (s s' : AppState) (e : Event) (lib : PromptLibrary)
    (hinv : ErrorsCompiledInv s) (hr : reduce s e lib = some s') :
    ErrorsCompiledInv s' := by
  cases e with
  | SET_REF slot value => exact applyErrors_inv hr
  | CLEAR_REF slot => exact applyErrors_inv hr
  | ADD_VARIATION v => exact applyErrors_inv hr
  | REMOVE_VARIATION v => exact applyErrors_inv hr
  | CLEAR_CATEGORY c => exact applyErrors_inv hr
  | DESELECT_MODULE moduleId => exact applyErrors_inv hr
  | SELECT_MODULE moduleId =>
    simp only [reduce] at hr
    split at hr
    · cases hr; intro _; rfl
    · split at hr
      · cases hr
      · cases hr; intro _; rfl
      · split at hr
        · cases hr; intro _; rfl
        · exact applyErrors_inv hr
  | COMPILE =>
    simp only [reduce] at hr
    split at hr
    · cases hr
    · split at hr
      · cases hr; intro _; rfl
      · split at hr
        · cases hr
        · cases hr; intro hne; exact absurd rfl hne

/-- Witness for C6: the invariant holds at the initial state and is carried
across a `SET_REF` step. -/
theorem reduce_preserves_inv_witness : ErrorsCompiledInv setRefState :=
  reduce_preserves_inv initialState setRefState
    (.SET_REF .character (some "r")) emptyLib
    (fun h => absurd rfl h) (by decide)

/-- C9: any event other than `COMPILE` that leaves the error list empty also
leaves the stored compile output untouched; only `COMPILE` recomputes it. -/
theorem reduce_frames_compiled (s s' : AppState) (e : Event) (lib : PromptLibrary)
    (hne : e ≠ Event.COMPILE) (hr : reduce s e lib = some s')
    (he : s'.errors = []) : s'.compiled = s.compiled := by
  cases e with
  | SET_REF slot value => have h2 := applyErrors_frame hr he; exact h2
  | CLEAR_REF slot => have h2 := applyErrors_frame hr he; exact h2
  | ADD_VARIATION v => have h2 := applyErrors_frame hr he; exact h2
  | REMOVE_VARIATION v => have h2 := applyErrors_frame hr he; exact h2
  | CLEAR_CATEGORY c => have h2 := applyErrors_frame hr he; exact h2
  | DESELECT_MODULE moduleId => have h2 := applyErrors_frame hr he; exact h2
  | SELECT_MODULE moduleId =>
    simp only [reduce] at hr
    split at hr
    · cases hr; exact absurd he (by simp)
    · split at hr
      · cases hr
      · cases hr; exact absurd he (by simp)
      · split at hr
        · cases hr; exact absurd he (by simp)
        · have h2 := applyErrors_frame hr he; exact h2
  | COMPILE => exact absurd rfl hne

/-- Witness for C9: an error-free `ADD_VARIATION` step keeps `compiled`
unchanged. -/
theorem reduce_frames_compiled_witness : varState.compiled = initialState.compiled :=
  reduce_frames_compiled initialState varState (.ADD_VARIATION "v") emptyLib
    (by decide) (by decide) rfl

theorem validateState_irrel (a : AppState) (lib : PromptLibrary) (e : List String)
    (c : Option CompiledResult) :
    validateState { a with errors := e, compiled := c } lib = validateState a lib := rfl

theorem validateState_after_applyErrors {next s' : AppState} {lib : PromptLibrary}
    (h : applyErrors next lib = some s') : validateState s' lib = some s'.errors := by
  obtain ⟨errs, hv, rfl⟩ := applyErrors_eq_some h
  dsimp only
  rw [validateState_irrel]
  exact hv

/-- C3 (amended): after any `reduce` step that is not a rejected
`SELECT_MODULE`, the validator agrees with the stored error list. -/
theorem validateState_agrees (s s' : AppState) (e : Event) (lib : PromptLibrary)
    (hr : reduce s e lib = some s')
    (hnr : selectRejected s e lib = false) :
    validateState s' lib = some s'.errors := by
  cases e with
  | SET_REF slot value => exact validateState_after_applyErrors hr
  | CLEAR_REF slot => exact validateState_after_applyErrors hr
  | ADD_VARIATION v => exact validateState_after_applyErrors hr
  | REMOVE_VARIATION v => exact validateState_after_applyErrors hr
  | CLEAR_CATEGORY c => exact validateState_after_applyErrors hr
  | DESELECT_MODULE moduleId => exact validateState_after_applyErrors hr
  | SELECT_MODULE moduleId =>
    simp only [reduce] at hr
    split at hr
    · rename_i hb
      simp [selectRejected, hb] at hnr
    · rename_i mod hb
      split at hr
      · cases hr
      · rename_i msg hv
        simp [selectRejected, hb, hv] at hnr
      · rename_i hv
        split at hr
        · rename_i hk
          simp [selectRejected, hb, hv, hk] at hnr
        · exact validateState_after_applyErrors hr
  | COMPILE =>
    simp only [reduce] at hr
    split at hr
    · cases hr
    · rename_i errs hv
      split at hr
      · cases hr
        dsimp only
        rw [validateState_irrel]
        exact hv
      · rename_i hl
        have he : errs = [] := List.length_eq_zero.mp (Nat.eq_zero_of_not_pos hl)
        split at hr
        · cases hr
        · cases hr
          dsimp only
          rw [validateState_irrel, hv, he]

/-- Witness for C3 (amended) across an `ADD_VARIATION` step. -/
theorem validateState_agrees_witness : validateState varState emptyLib = some varState.errors :=
  validateState_agrees initialState varState (.ADD_VARIATION "v") emptyLib (by decide) rfl

/-- Counterexample to C3 as stated: one step from the initial state,
`SELECT_MODULE` of an unknown id yields a reachable state whose stored
errors are the single unknown-id message while `validateState` returns the
empty list. -/
theorem validateState_agrees_cex :
    (reduce initialState (.SELECT_MODULE "ghost") emptyLib).map AppState.errors =
      some ["Unknown module id: " ++ q "ghost"] ∧
    (reduce initialState (.SELECT_MODULE "ghost") emptyLib).bind
      (fun t => validateState t emptyLib) = some [] := by
  exact ⟨rfl, rfl⟩

theorem resolveIds_isSome_of (lib : PromptLibrary) (l : List String)
    (h : ∀ id ∈ l, (lib.byId id).isSome = true) :
    (resolveIds lib l).isSome = true := by
  induction l with
  | nil => rfl
  | cons a t ih =>
    have ha := h a (List.mem_cons_self a t)
    have ht := ih (fun id hid => h id (List.mem_cons_of_mem a hid))
    simp only [resolveIds]
    cases hb : lib.byId a with
    | none => simp [hb] at ha
    | some m =>
      cases hres : resolveIds lib t with
      | none => simp [hres] at ht
      | some ms => simp [hres]

/-- C4 (amended): `validateState` succeeds on every state whose selected
ids all resolve in the library (as the Governor guarantees); it is not
total on arbitrary states. -/
theorem validateState_total (s : AppState) (lib : PromptLibrary)
    (h : ∀ id ∈ flattenSelected s.selected, (lib.byId id).isSome = true) :
    (validateState s lib).isSome = true := by
  have hres := resolveIds_isSome_of lib (flattenSelected s.selected) h
  simp only [validateState, resolveModules]
  cases hr : resolveIds lib (flattenSelected s.selected) with
  | none => rw [hr] at hres; simp at hres
  | some ms => simp [hr]

/-- Witness for C4 (amended) at the initial state. -/
theorem validateState_total_witness : (validateState initialState emptyLib).isSome = true :=
  validateState_total initialState emptyLib (by decide)

/-- Counterexample to C4 as stated: on a state whose selection holds an id
absent from the library, `validateState` throws (returns `none`) instead of
returning an error list. -/
theorem validateState_throw_cex : validateState ghostState emptyLib = none := rfl

/-- C5 (amended): when the scope pre-check fires on `SELECT_MODULE` of a
known module, the event stores exactly the single pre-check message, nulls
`compiled`, and leaves the selection lists, refs, and variations unchanged.
The pre-check itself is computed against all currently selected modules,
including one in the same category (see the counterexample). -/
theorem select_scope_rejection (s s' : AppState) (lib : PromptLibrary)
    (mid msg : String) (mod : PromptModule)
    (hm : lib.byId mid = some mod)
    (hv : violatesScopeOnSelect mod s lib = some (some msg))
    (hr : reduce s (.SELECT_MODULE mid) lib = some s') :
    s'.errors = [msg] ∧ s'.compiled = none ∧ s'.selected = s.selected ∧
      s'.refs = s.refs ∧ s'.variations = s.variations := by
  simp only [reduce, hm, hv] at hr
  cases hr
  exact ⟨rfl, rfl, rfl, rfl, rfl⟩

/-- Witness for C5 (amended): selecting the hands-only module over the
already-selected same-category module is rejected with the hands-only
message and no selection change. -/
theorem select_scope_rejection_witness :
    rejState.errors = ["Hands-only module must be used alone in v1."] ∧
      rejState.compiled = none ∧ rejState.selected = statePlain.selected ∧
      rejState.refs = statePlain.refs ∧ rejState.variations = statePlain.variations :=
  select_scope_rejection statePlain rejState libHands "hands"
    "Hands-only module must be used alone in v1." modHands rfl rfl rfl

/-- Counterexample to C5 as stated: the only selected module is in the same
category as the incoming hands-only module (all other categories are
empty), yet the pre-check fires and the selection is left as it was instead
of being replaced. -/
theorem select_scope_same_category_cex :
    modHands.category = modPlain.category ∧
    statePlain.selected.facial_pose = [] ∧
    statePlain.selected.apparel_textile = [] ∧
    statePlain.selected.product = [] ∧
    statePlain.selected.cinematography = [] ∧
    reduce statePlain (.SELECT_MODULE "hands") libHands = some rejState ∧
    rejState.selected = statePlain.selected := by
  exact ⟨rfl, rfl, rfl, rfl, rfl, rfl, rfl⟩

theorem hexDigitChar_hex : ∀ d : Fin 16, isHexDigit (hexDigitChar d.val) = true := by decide

theorem toHexGo_chars : ∀ (fuel n : Nat) (acc : List Char),
    (∀ c ∈ acc, isHexDigit c = true) → ∀ c ∈ toHexGo fuel n acc, isHexDigit c = true := by
  intro fuel
  induction fuel with
  | zero => intro n acc hacc c hc; exact hacc c hc
  | succ fuel ih =>
    intro n acc hacc c hc
    simp only [toHexGo] at hc
    split at hc
    · exact hacc c hc
    · refine ih (n / 16) (hexDigitChar (n % 16) :: acc) ?_ c hc
      intro x hx
      rcases List.mem_cons.mp hx with h1 | h2
      · subst h1
        exact hexDigitChar_hex ⟨n % 16, Nat.mod_lt _ (by norm_num)⟩
      · exact hacc x h2

theorem toHexGo_length_le : ∀ (k fuel n : Nat) (acc : List Char), n < 16 ^ k →
    (toHexGo fuel n acc).length ≤ k + acc.length := by
  intro k
  induction k with
  | zero =>
    intro fuel n acc h
    have hz : n = 0 := Nat.lt_one_iff.mp (by simpa using h)
    subst hz
    cases fuel with
    | zero => simp [toHexGo]
    | succ fuel => simp [toHexGo]
  | succ k ih =>
    intro fuel n acc h
    cases fuel with
    | zero => simp only [toHexGo]; omega
    | succ fuel =>
      simp only [toHexGo]
      split
      · omega
      · have hdiv : n / 16 < 16 ^ k := by
          rw [Nat.div_lt_iff_lt_mul (by norm_num : 0 < 16)]
          calc n < 16 ^ (k + 1) := h
            _ = 16 ^ k * 16 := by rw [pow_succ]
        have hrec := ih fuel (n / 16) (hexDigitChar (n % 16) :: acc) hdiv
        simp only [List.length_cons] at hrec
        omega

theorem toHexGo_length_ge : ∀ (fuel n : Nat) (acc : List Char),
    acc.length ≤ (toHexGo fuel n acc).length := by
  intro fuel
  induction fuel with
  | zero => intro n acc; exact le_refl _
  | succ fuel ih =>
    intro n acc
    simp only [toHexGo]
    split
    · exact le_refl _
    · have hrec := ih (n / 16) (hexDigitChar (n % 16) :: acc)
      simp only [List.length_cons] at hrec
      omega

theorem char_toNat_lt (c : Char) : c.toNat < 4294967296 := by
  have h1 := c.val.toNat_lt
  have h2 : c.toNat = c.val.toNat := rfl
  omega

theorem djb2Step_lt (h c : Nat) (hc : c < 4294967296) : djb2Step h c < 4294967296 := by
  unfold djb2Step
  have h1 : h * 33 % 4294967296 < 4294967296 := Nat.mod_lt _ (by norm_num)
  have he : (4294967296 : Nat) = 2 ^ 32 := by norm_num
  rw [he] at h1 hc ⊢
  exact Nat.xor_lt_two_pow h1 hc

theorem djb2_lt (s : String) : djb2 s < 4294967296 := by
  unfold djb2
  suffices hgen : ∀ (l : List Char) (h0 : Nat), h0 < 4294967296 →
      List.foldl (fun h c => djb2Step h c.toNat) h0 l < 4294967296 from
    hgen s.data 5381 (by norm_num)
  intro l
  induction l with
  | nil => intro h0 hh; simpa using hh
  | cons c t ih =>
    intro h0 hh
    simp only [List.foldl]
    exact ih _ (djb2Step_lt h0 c.toNat (char_toNat_lt c))

theorem toHexString_hex (n : Nat) (hlt : n < 4294967296) :
    1 ≤ (toHexString n).length ∧ (toHexString n).length ≤ 8 ∧
      ∀ c ∈ (toHexString n).data, isHexDigit c = true := by
  unfold toHexString
  split
  · refine ⟨by decide, by decide, ?_⟩
    intro c hc
    rcases List.mem_singleton.mp hc with rfl
    decide
  · rename_i hn
    refine ⟨?_, ?_, ?_⟩
    · show 1 ≤ (toHexGo n n []).length
      cases hfuel : n with
      | zero => exact absurd hfuel hn
      | succ m =>
        simp only [toHexGo]
        rw [if_neg (Nat.succ_ne_zero m)]
        have := toHexGo_length_ge m ((m + 1) / 16) [hexDigitChar ((m + 1) % 16)]
        simpa using this
    · show (toHexGo n n []).length ≤ 8
      have h16 : n < 16 ^ 8 := by
        have : (16 : Nat) ^ 8 = 4294967296 := by norm_num
        omega
      simpa using toHexGo_length_le 8 n n [] h16
    · intro c hc
      exact toHexGo_chars n n [] (by intro x hx; cases hx) c hc

/-- C8 (amended): every fingerprint is a non-empty lowercase-hexadecimal
string of at most eight characters — the base-16 rendering of a 32-bit
value without zero padding, so the width is not fixed. -/
theorem fingerprint_hex_bounded (s : AppState) :
    1 ≤ (fingerprint s).length ∧ (fingerprint s).length ≤ 8 ∧
      ∀ c ∈ (fingerprint s).data, isHexDigit c = true :=
  toHexString_hex (djb2 (fingerprintPayload s)) (djb2_lt _)

set_option maxRecDepth 10000 in
set_option maxHeartbeats 1000000 in
/-- Counterexample to C8 as stated: two states whose fingerprints have
different lengths (eight and seven hex digits), because `toString(16)` does
not pad. -/
theorem fingerprint_width_cex :
    fingerprint initialState = "cb401dfc" ∧ fingerprint shortHashState = "eb98e0c" ∧
      (fingerprint initialState).length = 8 ∧ (fingerprint shortHashState).length = 7 := by
  refine ⟨by decide, by decide, by decide, by decide⟩

theorem except_error_of_not_ok {ε α : Type} {x : Except ε α} (h : ∀ a, x ≠ .ok a) :
    ∃ e, x = .error e :=
  match x, h with
  | .error e, _ => ⟨e, rfl⟩
  | .ok a, h => absurd rfl (h a)

theorem assertUniqueGo_ok : ∀ (l seen : List String),
    assertUniqueGo seen l = .ok () ↔ (l.Nodup ∧ ∀ x ∈ l, x ∉ seen) := by
  intro l
  induction l with
  | nil => intro seen; simp [assertUniqueGo]
  | cons a t ih =>
    intro seen
    simp only [assertUniqueGo]
    split
    · rename_i hmem
      constructor
      · intro h; exact absurd h (by simp)
      · rintro ⟨-, hall⟩
        exact absurd hmem (hall a (List.mem_cons_self a t))
    · rename_i hmem
      rw [ih (a :: seen)]
      constructor
      · rintro ⟨hnd, hall⟩
        have hat : a ∉ t := fun hin => (hall a hin) (List.mem_cons_self a seen)
        refine ⟨List.nodup_cons.mpr ⟨hat, hnd⟩, ?_⟩
        intro x hx
        rcases List.mem_cons.mp hx with rfl | hxt
        · exact hmem
        · exact fun hxs => (hall x hxt) (List.mem_cons_of_mem a hxs)
      · rintro ⟨hnd, hall⟩
        obtain ⟨hat, hndt⟩ := List.nodup_cons.mp hnd
        refine ⟨hndt, ?_⟩
        intro x hxt hxs
        rcases List.mem_cons.mp hxs with rfl | hxs2
        · exact hat hxt
        · exact (hall x (List.mem_cons_of_mem a hxt)) hxs2

theorem assertUnique_ok_iff (l : List String) :
    assertUniqueModuleIds l = .ok () ↔ l.Nodup := by
  rw [assertUniqueModuleIds, assertUniqueGo_ok]
  simp

theorem resolveSelected_ok_of (lib : PromptLibrary) (l : List String)
    (h : ∀ id ∈ l, (lib.byId id).isSome = true) :
    resolveSelected lib l = .ok (l.filterMap lib.byId) := by
  induction l with
  | nil => rfl
  | cons a t ih =>
    obtain ⟨m, hm⟩ := Option.isSome_iff_exists.mp (h a (List.mem_cons_self a t))
    have ht := ih (fun id hid => h id (List.mem_cons_of_mem a hid))
    simp [resolveSelected, hm, ht, List.filterMap_cons]

theorem resolveSelected_ok_imp (lib : PromptLibrary) :
    ∀ (l : List String) (ms : List PromptModule),
      resolveSelected lib l = .ok ms →
      ms = l.filterMap lib.byId ∧ ∀ id ∈ l, (lib.byId id).isSome = true := by
  intro l
  induction l with
  | nil =>
    intro ms h
    simp only [resolveSelected] at h
    cases h
    exact ⟨rfl, by simp⟩
  | cons a t ih =>
    intro ms h
    simp only [resolveSelected] at h
    split at h
    · cases h
    · rename_i m hm
      split at h
      · cases h
      · rename_i ms' hms'
        cases h
        obtain ⟨rfl, hall⟩ := ih ms' hms'
        refine ⟨by simp [List.filterMap_cons, hm], ?_⟩
        intro id hid
        rcases List.mem_cons.mp hid with rfl | hid2
        · simp [hm]
        · exact hall id hid2

theorem jsSetInsert_mem (s : List String) (a x : String) :
    x ∈ jsSetInsert s a ↔ x ∈ s ∨ x = a := by
  unfold jsSetInsert
  split
  · rename_i hin
    exact ⟨Or.inl, fun h => h.elim id (fun he => he ▸ hin)⟩
  · simp [List.mem_append]

theorem jsSetFold_mem : ∀ (l acc : List String) (x : String),
    x ∈ l.foldl jsSetInsert acc ↔ x ∈ acc ∨ x ∈ l := by
  intro l
  induction l with
  | nil => simp
  | cons a t ih =>
    intro acc x
    simp only [List.foldl_cons]
    rw [ih, jsSetInsert_mem]
    simp [List.mem_cons]
    tauto

theorem jsSetInsert_nodup (s : List String) (a : String) (h : s.Nodup) :
    (jsSetInsert s a).Nodup := by
  unfold jsSetInsert
  split
  · exact h
  · rename_i hnin
    rw [List.nodup_append]
    refine ⟨h, List.nodup_singleton a, ?_⟩
    intro x hx hxa
    rw [List.mem_singleton] at hxa
    subst hxa
    exact hnin hx

theorem jsSetFold_nodup : ∀ (l acc : List String), acc.Nodup →
    (l.foldl jsSetInsert acc).Nodup := by
  intro l
  induction l with
  | nil => intro acc h; exact h
  | cons a t ih =>
    intro acc h
    simp only [List.foldl_cons]
    exact ih (jsSetInsert acc a) (jsSetInsert_nodup acc a h)

theorem jsSetList_nodup (l : List String) : (jsSetList l).Nodup :=
  jsSetFold_nodup l [] List.nodup_nil

theorem jsSetList_mem (l : List String) (x : String) : x ∈ jsSetList l ↔ x ∈ l := by
  unfold jsSetList
  rw [jsSetFold_mem]
  simp

theorem jsSetList_perm {l₁ l₂ : List String} (h : l₁.Perm l₂) :
    (jsSetList l₁).Perm (jsSetList l₂) :=
  (List.perm_ext_iff_of_nodup (jsSetList_nodup _) (jsSetList_nodup _)).mpr
    (fun a => by rw [jsSetList_mem, jsSetList_mem, h.mem_iff])

theorem jsSetList_perm_dedup (l : List String) : (jsSetList l).Perm l.dedup :=
  (List.perm_ext_iff_of_nodup (jsSetList_nodup _) (List.nodup_dedup l)).mpr
    (fun a => by rw [jsSetList_mem, List.mem_dedup])

theorem dedupeConstraints_perm {ms₁ ms₂ : List PromptModule} (h : ms₁.Perm ms₂) :
    dedupeConstraints ms₁ = dedupeConstraints ms₂ := by
  unfold dedupeConstraints allConstraints
  exact sortStrings_eq_of_perm
    (((jsSetList_perm (h.flatMap_right _)).map _).filter _)

theorem dedupeConstraints_eq_spec (ms : List PromptModule) :
    dedupeConstraints ms = specDedupedConstraints ms := by
  unfold dedupeConstraints specDedupedConstraints
  exact sortStrings_eq_of_perm (((jsSetList_perm_dedup _).map _).filter _)

theorem categoryModules_congr {ms₁ ms₂ : List PromptModule} (cat : String)
    (h : ms₁.Perm ms₂)
    (hinj : ∀ a ∈ ms₁, ∀ b ∈ ms₁, a.id = b.id → a = b) :
    categoryModules ms₁ cat = categoryModules ms₂ cat := by
  unfold categoryModules
  have hp : (ms₁.filter (fun m => m.category == cat)).Perm
      (ms₂.filter (fun m => m.category == cat)) := h.filter _
  refine @List.Perm.eq_of_sorted PromptModule moduleLe _ _ ?_ ?_ ?_ ?_
  · intro a b ha hb hab hba
    have ha1 : a ∈ ms₁ := List.mem_of_mem_filter ((List.mem_insertionSort _).mp ha)
    have hb1 : b ∈ ms₁ :=
      h.symm.subset (List.mem_of_mem_filter ((List.mem_insertionSort _).mp hb))
    exact hinj a ha1 b hb1 (strLe_antisymm hab hba)
  · exact @List.sorted_insertionSort PromptModule moduleLe _ ⟨moduleLe_total⟩ ⟨moduleLe_trans⟩ _
  · exact @List.sorted_insertionSort PromptModule moduleLe _ ⟨moduleLe_total⟩ ⟨moduleLe_trans⟩ _
  · exact (List.perm_insertionSort _ _).trans (hp.trans (List.perm_insertionSort _ _).symm)

theorem resolved_inj (lib : PromptLibrary) (hwf : WellFormedLibrary lib)
    (l : List String) (ms : List PromptModule)
    (h : resolveSelected lib l = .ok ms) :
    ∀ a ∈ ms, ∀ b ∈ ms, a.id = b.id → a = b := by
  obtain ⟨rfl, -⟩ := resolveSelected_ok_imp lib l ms h
  intro a ha b hb hid
  obtain ⟨ka, -, hka2⟩ := List.mem_filterMap.mp ha
  obtain ⟨kb, -, hkb2⟩ := List.mem_filterMap.mp hb
  have h1 := hwf ka a hka2
  have h2 := hwf kb b hkb2
  have hk : ka = kb := by rw [← h1, ← h2, hid]
  rw [hk, hkb2] at hka2
  injection hka2 with h3
  exact h3.symm

theorem filterMap_map_id (lib : PromptLibrary) (hwf : WellFormedLibrary lib) :
    ∀ l : List String, (∀ id ∈ l, (lib.byId id).isSome = true) →
      (l.filterMap lib.byId).map (fun m => m.id) = l := by
  intro l
  induction l with
  | nil => simp
  | cons a t ih =>
    intro h
    obtain ⟨m, hm⟩ := Option.isSome_iff_exists.mp (h a (List.mem_cons_self a t))
    simp [List.filterMap_cons, hm,
      ih (fun id hid => h id (List.mem_cons_of_mem a hid)), hwf a m hm]

theorem validateReferences_perm {ms₁ ms₂ : List PromptModule}
    (input input' : CompileInput) (h : ms₁.Perm ms₂)
    (hc : input.character_ref = input'.character_ref)
    (hp : input.product_ref = input'.product_ref)
    (he : input.environment_ref = input'.environment_ref) :
    validateReferences ms₁ input = validateReferences ms₂ input' := by
  unfold validateReferences
  rw [perm_any _ h, perm_any _ h, perm_any _ h, hc, hp, he]

theorem buildPrompt_congr (input : CompileInput) (l' : List String)
    (lib : PromptLibrary) {ms₁ ms₂ : List PromptModule} {ded : List String}
    (hcat : ∀ cat, categoryModules ms₁ cat = categoryModules ms₂ cat) :
    buildPrompt input lib ms₁ ded =
      buildPrompt { input with selected_modules := l' } lib ms₂ ded := by
  unfold buildPrompt
  simp only [hcat]
  rfl

/-- C1: for a fixed well-formed library and fixed references/variations,
permuting `selected_modules` changes neither `prompt` nor
`dedupedConstraints` (and both calls fail together when they fail);
`usedModuleIds` is the resolved ids in exactly the caller-supplied order,
i.e. the input id list itself. -/
theorem compilePrompt_order_independent (input : CompileInput)
    (library : PromptLibrary) (l' : List String)
    (hwf : WellFormedLibrary library)
    (hperm : input.selected_modules.Perm l') :
    ((compilePrompt input library).toOption.map
        (fun o => (o.prompt, o.dedupedConstraints)) =
      (compilePrompt { input with selected_modules := l' } library).toOption.map
        (fun o => (o.prompt, o.dedupedConstraints))) ∧
    (compilePrompt input library).toOption.map (fun o => o.usedModuleIds) =
      (compilePrompt input library).toOption.map (fun _ => input.selected_modules) := by
  by_cases hnd : input.selected_modules.Nodup
  · by_cases hall : ∀ id ∈ input.selected_modules, (library.byId id).isSome = true
    · have ha1 : assertUniqueModuleIds input.selected_modules = .ok () :=
        (assertUnique_ok_iff _).mpr hnd
      have ha2 : assertUniqueModuleIds l' = .ok () :=
        (assertUnique_ok_iff _).mpr (hperm.nodup hnd)
      have hr1 := resolveSelected_ok_of library input.selected_modules hall
      have hall' : ∀ id ∈ l', (library.byId id).isSome = true :=
        fun id hid => hall id (hperm.mem_iff.mpr hid)
      have hr2 := resolveSelected_ok_of library l' hall'
      have hmsperm : (input.selected_modules.filterMap library.byId).Perm
          (l'.filterMap library.byId) := hperm.filterMap _
      have hvr : validateReferences (input.selected_modules.filterMap library.byId) input =
          validateReferences (l'.filterMap library.byId)
            { input with selected_modules := l' } :=
        validateReferences_perm _ _ hmsperm rfl rfl rfl
      cases hv : validateReferences (input.selected_modules.filterMap library.byId) input with
      | error e =>
        rw [hvr] at hv
        rw [← hvr] at hv
        have hv2 : validateReferences (l'.filterMap library.byId)
            { input with selected_modules := l' } = .error e := by rw [← hvr]; exact hv
        simp [compilePrompt, Except.toOption, ha1, ha2, hr1, hr2, hv, hv2]
      | ok u =>
        cases u
        have hv2 : validateReferences (l'.filterMap library.byId)
            { input with selected_modules := l' } = .ok () := by rw [← hvr]; exact hv
        have hinj := resolved_inj library hwf input.selected_modules _ hr1
        have hcat : ∀ cat, categoryModules (input.selected_modules.filterMap library.byId) cat =
            categoryModules (l'.filterMap library.byId) cat :=
          fun cat => categoryModules_congr cat hmsperm hinj
        have hded : dedupeConstraints (input.selected_modules.filterMap library.byId) =
            dedupeConstraints (l'.filterMap library.byId) := dedupeConstraints_perm hmsperm
        have hbp : buildPrompt input library (input.selected_modules.filterMap library.byId)
              (dedupeConstraints (input.selected_modules.filterMap library.byId)) =
            buildPrompt { input with selected_modules := l' } library
              (l'.filterMap library.byId)
              (dedupeConstraints (l'.filterMap library.byId)) := by
          rw [hded]
          exact buildPrompt_congr input l' library hcat
        have hids : (input.selected_modules.filterMap library.byId).map (fun m => m.id) =
            input.selected_modules := filterMap_map_id library hwf _ hall
        rw [hded] at hbp
        constructor
        · simp [compilePrompt, Except.toOption, ha1, ha2, hr1, hr2, hv, hv2, hbp, hded]
        · simp [compilePrompt, Except.toOption, ha1, hr1, hv, hids]
    · have h1 : ∀ ms, resolveSelected library input.selected_modules ≠ .ok ms :=
        fun ms hms => hall ((resolveSelected_ok_imp library _ ms hms).2)
      obtain ⟨e1, he1⟩ := except_error_of_not_ok h1
      have hall' : ¬ ∀ id ∈ l', (library.byId id).isSome = true :=
        fun h => hall (fun id hid => h id (hperm.mem_iff.mp hid))
      have h2 : ∀ ms, resolveSelected library l' ≠ .ok ms :=
        fun ms hms => hall' ((resolveSelected_ok_imp library _ ms hms).2)
      obtain ⟨e2, he2⟩ := except_error_of_not_ok h2
      have ha1 : assertUniqueModuleIds input.selected_modules = .ok () :=
        (assertUnique_ok_iff _).mpr hnd
      have ha2 : assertUniqueModuleIds l' = .ok () :=
        (assertUnique_ok_iff _).mpr (hperm.nodup hnd)
      simp [compilePrompt, Except.toOption, ha1, ha2, he1, he2]
  · have h1 : ∀ u, assertUniqueModuleIds input.selected_modules ≠ .ok u := by
      intro u hu
      cases u
      exact hnd ((assertUnique_ok_iff _).mp hu)
    obtain ⟨e1, he1⟩ := except_error_of_not_ok h1
    have hnd' : ¬ l'.Nodup := fun hn => hnd (hperm.symm.nodup hn)
    have h2 : ∀ u, assertUniqueModuleIds l' ≠ .ok u := by
      intro u hu
      cases u
      exact hnd' ((assertUnique_ok_iff _).mp hu)
    obtain ⟨e2, he2⟩ := except_error_of_not_ok h2
    simp [compilePrompt, Except.toOption, he1, he2]


theorem libAB_wf : WellFormedLibrary libAB := by
  intro k m h
  simp only [libAB] at h
  split_ifs at h with h1 h2
  · cases h; subst h1; rfl
  · cases h; subst h2; rfl

/-- Witness for C1 on a concrete two-module library and a transposed
selection. -/
theorem compilePrompt_order_independent_witness :
    ((compilePrompt inAB libAB).toOption.map
        (fun o => (o.prompt, o.dedupedConstraints)) =
      (compilePrompt { inAB with selected_modules := ["b1", "a1"] } libAB).toOption.map
        (fun o => (o.prompt, o.dedupedConstraints))) ∧
    (compilePrompt inAB libAB).toOption.map (fun o => o.usedModuleIds) =
      (compilePrompt inAB libAB).toOption.map (fun _ => inAB.selected_modules) :=
  compilePrompt_order_independent inAB libAB ["b1", "a1"] libAB_wf (by decide)

/-- C2 (amended): `dedupedConstraints` equals the resolved modules'
constraint strings deduplicated by exact equality first, then trimmed, with
entries that became empty dropped, sorted ascending — so two distinct
originals that trim to the same string each keep an entry, and entries are
trimmed rather than verbatim. -/
theorem dedupedConstraints_spec (input : CompileInput) (library : PromptLibrary)
    (ms : List PromptModule)
    (hres : resolveSelected library input.selected_modules = .ok ms)
    (hok : (compilePrompt input library).isOk = true) :
    (compilePrompt input library).toOption.map (fun o => o.dedupedConstraints) =
      some (specDedupedConstraints ms) := by
  cases ha : assertUniqueModuleIds input.selected_modules with
  | error e => simp [compilePrompt, ha, Except.isOk, Except.toBool] at hok
  | ok u =>
    cases u
    cases hv : validateReferences ms input with
    | error e => simp [compilePrompt, ha, hres, hv, Except.isOk, Except.toBool] at hok
    | ok u2 =>
      cases u2
      simp [compilePrompt, Except.toOption, ha, hres, hv, dedupeConstraints_eq_spec]

/-- Witness for C2 (amended) on the concrete two-module library. -/
theorem dedupedConstraints_spec_witness :
    (compilePrompt inAB libAB).toOption.map (fun o => o.dedupedConstraints) =
      some (specDedupedConstraints [modA, modB]) :=
  dedupedConstraints_spec inAB libAB [modA, modB] rfl rfl

/-- Counterexample to C2 as stated: a module with constraints `"x "` and
`" x"` (distinct strings, so exact-equality dedup keeps both) compiles to
`dedupedConstraints = ["x", "x"]` — a duplicated entry in which neither
original constraint string appears verbatim. -/
theorem dedupedConstraints_verbatim_cex :
    (compilePrompt inTrim libTrim).toOption.map (fun o => o.dedupedConstraints) =
      some ["x", "x"] ∧
    ¬ (["x", "x"] : List String).Nodup ∧
    ("x " : String) ∈ modTrim.constraints ∧
    ("x " : String) ∉ (["x", "x"] : List String) := by
  refine ⟨by decide, by decide, by decide, by decide⟩
